import Mathlib

/-!
Verification of the TESPy steady-state network solver core
(`src/tespy/networks/network.py` and the heat-exchanger components) against
its natural-language specification.  The Python source is shallowly embedded:
floating-point SI values become rationals, numpy vectors become lists or index
functions, and the external thermodynamic property evaluator (out of scope for
the spec) is abstracted by arbitrary clamp functions wherever the solver only
pipes its results through guarded assignments.
-/

namespace Tespy

/-- Modelled from the spec: the global iteration tolerance `err` lives in
`tespy.tools.global_vars`, a module that is not part of the verified sources;
tespy sets it to `1e-6`, the "small threshold" base tolerance the spec refers
to. -/
def err : ℚ := 1 / 1000000

/-- Convergence threshold of the Newton loop, `err ** 0.5` in
`Network.solve_loop` (network.py line 1586); with `err = 1e-6` this is exactly
`1e-3`. -/
def errSqrt : ℚ := 1 / 1000

/-- Number of state-vector slots per connection,
`num_conn_vars = len(fluids) + 3` (network.py line 1609). -/
def numConnVars (numFluids : ℕ) : ℕ := numFluids + 3

/-- Damped pressure update of `Network.solve_control` (network.py lines
1756-1761): `relax = max(1, -increment / (0.5 * p))` and the new pressure is
`p + increment / relax`. -/
def relaxStep (p inc : ℚ) : ℚ :=
  p + inc / max 1 (-inc / (1 / 2 * p))

/-- Temperature-level substitution block shared by
`HeatExchanger.kA_func` (heat_exchanger.py lines 589-596) and
`HeatExchanger.kA_char_func` (lines 642-649): sequential reassignment of the
four terminal temperatures with fixed offsets 0.01 and 0.02, written here as
chained lets to mirror the chained mutations. -/
def fixTempLevels (Ti1 Ti2 To1 To2 : ℚ) : ℚ × ℚ × ℚ × ℚ :=
  let Ti1a := if Ti1 ≤ To2 then To2 + 1 / 100 else Ti1
  let To2a := if Ti1a ≤ To2 then Ti1a - 1 / 100 else To2
  let To1a := if Ti1a ≤ To2a then Ti2 + 1 / 50 else To1
  let Ti2a := if To1a ≤ Ti2 then To1a - 1 / 50 else Ti2
  (Ti1a, Ti2a, To1a, To2a)

/-- Argument of the logarithm in the logarithmic-mean temperature difference,
`(T_o1 - T_i2) / (T_i1 - T_o2)` (heat_exchanger.py lines 598-599), evaluated
on the substituted temperature levels. -/
def lmtdLogArg (Ti1 Ti2 To1 To2 : ℚ) : ℚ :=
  let r := fixTempLevels Ti1 Ti2 To1 To2
  (r.2.2.1 - r.2.1) / (r.1 - r.2.2.2)

/-- One scalar connection property: SI value plus its `val_set` flag
(`value, is_fixed` in the spec's data model). -/
structure PropRec where
  val : ℚ
  valSet : Bool
deriving DecidableEq, Repr

/-- One fluid mass fraction of a connection's composition: value plus its
`val_set[fluid]` flag. -/
structure FluidRec where
  val : ℚ
  valSet : Bool
deriving DecidableEq, Repr

/-- The per-connection slice of solver state touched by
`Network.solve_control`: mass flow, pressure, enthalpy and the ordered fluid
mass fractions. -/
structure ConnState where
  m : PropRec
  p : PropRec
  h : PropRec
  fluid : List FluidRec
deriving DecidableEq, Repr

/-- Composition clamp of `Network.solve_control` (network.py lines 1775-1779):
a fraction below `err` becomes exactly 0, one above `1 - err` becomes exactly
1. -/
def fluidClamp (x : ℚ) : ℚ :=
  if x < err then 0 else if x > 1 - err then 1 else x

/-- Per-fluid update of `Network.solve_control` (network.py lines 1768-1781):
the increment is added only when the fraction is not `val_set`, then the
`[0, 1]` clamp is applied unconditionally. -/
def fluidStep (f : FluidRec) (inc : ℚ) : FluidRec :=
  let v := if f.valSet then f.val else f.val + inc
  ⟨fluidClamp v, f.valSet⟩

/-- Fold of `fluidStep` over a connection's composition; the increment vector
is the flat Newton increment viewed as a function of the fluid offset `j`
(network.py lines 1767-1781). -/
def fluidStepAll : List FluidRec → (ℕ → ℚ) → List FluidRec
  | [], _ => []
  | f :: fs, df => fluidStep f (df 0) :: fluidStepAll fs (fun j => df (j + 1))

/-- Increment application for one connection (network.py lines 1752-1781):
mass flow, pressure (with `relaxStep` damping) and enthalpy are only updated
when not `val_set`; the composition block runs only when the network carries
more than one fluid (`multi`). -/
def connStep (multi : Bool) (c : ConnState) (dm dp dh : ℚ) (df : ℕ → ℚ) :
    ConnState where
  m := if c.m.valSet then c.m else ⟨c.m.val + dm, c.m.valSet⟩
  p := if c.p.valSet then c.p else ⟨relaxStep c.p.val dp, c.p.valSet⟩
  h := if c.h.valSet then c.h else ⟨c.h.val + dh, c.h.valSet⟩
  fluid := if multi then fluidStepAll c.fluid df else c.fluid

/-- Post-step feasibility check `Network.solve_check_props` (network.py lines
1838-1934).  Every clamp branch of the source is guarded by the property's
`val_set` flag; the clamp targets themselves depend on the external property
evaluator and the configured global ranges, so they are abstracted here as
arbitrary maps applied only to non-fixed properties.  The composition is never
touched by this check. -/
def checkProps (clampM clampP clampH : ℚ → ℚ) (c : ConnState) : ConnState where
  m := if c.m.valSet then c.m else ⟨clampM c.m.val, c.m.valSet⟩
  p := if c.p.valSet then c.p else ⟨clampP c.p.val, c.p.valSet⟩
  h := if c.h.valSet then c.h else ⟨clampH c.h.val, c.h.valSet⟩
  fluid := c.fluid

/-- One full per-connection pass of `Network.solve_control` (lines 1752-1785):
increment application followed by the feasibility check. -/
def connUpdate (multi : Bool) (clampM clampP clampH : ℚ → ℚ) (c : ConnState)
    (dm dp dh : ℚ) (df : ℕ → ℚ) : ConnState :=
  checkProps clampM clampP clampH (connStep multi c dm dp dh df)

/-- A component free variable (`is_var` parameter) with its bounds. -/
structure CompVar where
  val : ℚ
  minVal : ℚ
  maxVal : ℚ
deriving DecidableEq, Repr

/-- Component-variable update of `Network.solve_control` (network.py lines
1788-1804): add the increment, then clamp to the variable's own bounds. -/
def updateCompVar (v : CompVar) (inc : ℚ) : CompVar :=
  let x := v.val + inc
  let x := if x < v.minVal then v.minVal
    else if x > v.maxVal then v.maxVal else x
  ⟨x, v.minVal, v.maxVal⟩

/-- Mutable solver state threaded through one `solve_control` call. -/
structure NetState where
  conns : List ConnState
  compVars : List CompVar
  residual : List ℚ
  increment : List ℚ
  linDep : Bool
deriving Repr

/-- `Network.matrix_inversion` (network.py lines 1714-1729).  The numpy/cupy
backend is the external `solve_linear_system` collaborator of the spec, so its
outcome is passed in as an `Option`: `some inc` is a successful inversion
(`lin_dep` becomes `False`), `none` is a raised `LinAlgError`, upon which the
increment is `residual * 0` and `lin_dep` stays `True`. -/
def matrixInversion (residual : List ℚ) (outcome : Option (List ℚ)) :
    Bool × List ℚ :=
  match outcome with
  | some inc => (false, inc)
  | none => (true, residual.map fun _ => 0)

/-- Increment application across all connections (network.py lines 1750-1785):
connection `i` reads its four slots starting at flat index
`i * num_conn_vars`. -/
def applyStep (multi : Bool) (clampM clampP clampH : ℚ → ℚ) (ncv : ℕ)
    (inc : List ℚ) (conns : List ConnState) : List ConnState :=
  (conns.zip (List.range conns.length)).map fun ci =>
    connUpdate multi clampM clampP clampH ci.1
      (inc.getD (ci.2 * ncv) 0)
      (inc.getD (ci.2 * ncv + 1) 0)
      (inc.getD (ci.2 * ncv + 2) 0)
      (fun j => inc.getD (ci.2 * ncv + 3 + j) 0)

/-- Component-variable sweep of `Network.solve_control` (lines 1788-1804),
reading increments after all connection blocks. -/
def applyCompStep (inc : List ℚ) (base : ℕ) (vars : List CompVar) :
    List CompVar :=
  (vars.zip (List.range vars.length)).map fun vj =>
    updateCompVar vj.1 (inc.getD (base + vj.2) 0)

/-- `Network.solve_control` (network.py lines 1731-1812): invert, and on a
singular Jacobian return immediately with the state untouched; otherwise apply
the increment to every connection and component variable. -/
def solveControl (multi : Bool) (clampM clampP clampH : ℚ → ℚ) (ncv : ℕ)
    (outcome : Option (List ℚ)) (st : NetState) : NetState :=
  let r := matrixInversion st.residual outcome
  if r.1 then
    { st with linDep := true, increment := r.2 }
  else
    { st with
      linDep := false
      increment := r.2
      conns := applyStep multi clampM clampP clampH ncv r.2 st.conns
      compVars := applyCompStep r.2 (ncv * st.conns.length) st.compVars }

/-- Exit condition of the Newton loop `Network.solve_loop`. -/
inductive ExitStatus where
  | converged
  | singular
  | stalled
  | exhausted
deriving DecidableEq, Repr

/-- Convergence test of `Network.solve_loop` (network.py line 1586):
iteration count at least `min_iter` and residual norm below `err ** 0.5`. -/
def convergedAt (minIter : ℕ) (resNorm : ℕ → ℚ) (i : ℕ) : Bool :=
  decide (minIter ≤ i) && decide (resNorm i < errSqrt)

/-- Stall test of `Network.solve_loop` (network.py lines 1590-1594): past
iteration 40, the last four residual norms all stay above 95 percent of the
fourth-from-last and the last stays above 95 percent of the previous one. -/
def stalledCheck (resNorm : ℕ → ℚ) (i : ℕ) : Bool :=
  decide (40 < i) &&
    ((List.range 4).all fun d =>
      decide (resNorm (i - 2) * (95 / 100) ≤ resNorm (i - 3 + d))) &&
    decide (resNorm (i - 1) * (95 / 100) ≤ resNorm i)

/-- One traversal of the `for self.iter in range(max_iter)` loop of
`Network.solve_loop` (network.py lines 1577-1594), starting at iteration `i`
with `rem` iterations left; per-iteration singularity flags and residual norms
are supplied as oracles.  Returns the last executed iteration index and the
exit condition. -/
def loopFrom (minIter : ℕ) (linDep : ℕ → Bool) (resNorm : ℕ → ℚ) :
    ℕ → ℕ → ℕ × ExitStatus
  | i, 0 => (i - 1, ExitStatus.exhausted)
  | i, rem + 1 =>
    if linDep i then (i, ExitStatus.singular)
    else if convergedAt minIter resNorm i then (i, ExitStatus.converged)
    else if stalledCheck resNorm i then (i, ExitStatus.stalled)
    else loopFrom minIter linDep resNorm (i + 1) rem

/-- The whole Newton loop of `Network.solve_loop`, from iteration 0. -/
def solveLoopModel (maxIter minIter : ℕ) (linDep : ℕ → Bool)
    (resNorm : ℕ → ℚ) : ℕ × ExitStatus :=
  loopFrom minIter linDep resNorm 0 maxIter

/-- Outcome of `Network.solve` after the loop (network.py lines 1530-1561):
a singular Jacobian and a stalled solve are reported and `solve` returns
normally; otherwise the calculation completes. -/
inductive SolveOutcome where
  | singularReport
  | noProgressReport
  | complete
deriving DecidableEq, Repr

/-- Post-loop reporting of `Network.solve` (network.py lines 1532-1561). -/
def solvePost : ExitStatus → SolveOutcome
  | ExitStatus.singular => SolveOutcome.singularReport
  | ExitStatus.stalled => SolveOutcome.noProgressReport
  | _ => SolveOutcome.complete

/-- Diagnostic of `Network.solve_determination` for an over-determined system
(network.py lines 1633-1638). -/
def tooManyMsg : String := "You have provided too many parameters"

/-- Diagnostic of `Network.solve_determination` for an under-determined system
(network.py lines 1639-1644). -/
def notEnoughMsg : String := "You have not provided enough parameters"

/-- `Network.solve_determination` (network.py lines 1606-1644): compare the
total equation count against `num_conn_vars * len(conns) + num_comp_vars` and
raise a `TESPyNetworkError` with a direction-specific message on mismatch. -/
def solveDetermination (numFluids numConns numCompVars numCompEq numConnEq
    numBusEq : ℕ) : Except String Unit :=
  let numVars := numConnVars numFluids * numConns + numCompVars
  let n := numCompEq + numConnEq + numBusEq
  if n > numVars then Except.error tooManyMsg
  else if n < numVars then Except.error notEnoughMsg
  else Except.ok ()

/-- The `solve` driver restricted to what the claims need (network.py lines
1529-1561): `solve_determination` runs before the loop and its exception
propagates; only then is the loop consulted and its exit reported. -/
def solveModel (numFluids numConns numCompVars numCompEq numConnEq
    numBusEq : ℕ) (loopRes : ℕ × ExitStatus) : Except String SolveOutcome :=
  match solveDetermination numFluids numConns numCompVars numCompEq numConnEq
      numBusEq with
  | Except.error msg => Except.error msg
  | Except.ok _ => Except.ok (solvePost loopRes.2)

/-- Residual of the composition-balance equation (network.py lines 2268-2275):
`res = 1` then `res -= val[f]` per fluid. -/
def fluidBalanceResidual (fracs : List ℚ) : ℚ :=
  fracs.foldl (fun r v => r - v) 1

/-- Columns receiving the `-1` Jacobian entries of the composition-balance
equation as the source writes them (network.py line 2272):
`c.conn_loc + 3 + j` for fluid offset `j`. -/
def fluidBalanceCols (connLoc numFluids : ℕ) : List ℕ :=
  (List.range numFluids).map fun j => connLoc + 3 + j

/-- Columns the state layout assigns to a connection's fluid fractions, the
formula used by every other equation block of `solve_connections` (e.g.
network.py lines 2161, 2185, 2294): `conn_loc * (3 + num_fluids) + 3 + j`. -/
def layoutFluidCols (connLoc numFluids : ℕ) : List ℕ :=
  (List.range numFluids).map fun j =>
    connLoc * numConnVars numFluids + 3 + j

/-- Fluid list normalisation of `Network.__init__` (network.py line 158):
`self.fluids = sorted(fluids)`. -/
def sortFluids (fluids : List String) : List String :=
  List.insertionSort (· ≤ ·) fluids

/-- Mapping of each (sorted) fluid name to the state-vector column of its mass
fraction on connection `connLoc`, as used when assembling residuals and
Jacobian entries (network.py lines 2290-2296). -/
def compositionColumns (fluids : List String) (connLoc : ℕ) :
    List (String × ℕ) :=
  let sorted := sortFluids fluids
  (sorted.zip (List.range sorted.length)).map fun fj =>
    (fj.1, connLoc * numConnVars fluids.length + 3 + fj.2)

/-- Grouped-parameter consistency check of `ParabolicTrough.comp_init`
(parabolic_trough.py lines 262-301): if every element is set the group becomes
active; otherwise, if the user had marked the group as set, a warning is
logged and the group is deactivated; otherwise it is simply inactive.
Returns (group `is_set` after the check, whether the warning was logged). -/
def groupCheck (groupIsSet : Bool) (elementsSet : List Bool) : Bool × Bool :=
  let allSet := elementsSet.all fun b => b
  if allSet then (true, false)
  else if groupIsSet then (false, true)
  else (false, false)

/-- Which parameters of a `ParabolicTrough` are user-specified, in the shape
`comp_init` consumes: the three plain properties that add one equation each,
the two grouped parameter sets and their elements (`hydro_group`: L, ks, D;
`energy_group`: E, eta_opt, aoi, doc, c_1, c_2, iam_1, iam_2, A, Tamb). -/
structure TroughParams where
  QSet : Bool
  prSet : Bool
  zetaSet : Bool
  hydroGroupSet : Bool
  LSet : Bool
  ksSet : Bool
  DSet : Bool
  energyGroupSet : Bool
  ESet : Bool
  etaOptSet : Bool
  aoiSet : Bool
  docSet : Bool
  c1Set : Bool
  c2Set : Bool
  iam1Set : Bool
  iam2Set : Bool
  ASet : Bool
  TambSet : Bool
deriving DecidableEq, Repr

/-- Result of `ParabolicTrough.comp_init`: the group activation flags, which
warnings were logged, and the component's equation count
`num_eq = num_nw_fluids + 1 + number of set optional parameters`
(parabolic_trough.py lines 303-310). -/
structure TroughInit where
  hydroIsSet : Bool
  hydroWarned : Bool
  energyIsSet : Bool
  energyWarned : Bool
  numEq : ℕ
deriving DecidableEq, Repr

/-- `ParabolicTrough.comp_init` (parabolic_trough.py lines 252-320) restricted
to its decision content: run both group checks, then count equations.  The
function is total: no path raises. -/
def troughCompInit (numFluids : ℕ) (ps : TroughParams) : TroughInit :=
  let hydro := groupCheck ps.hydroGroupSet [ps.LSet, ps.ksSet, ps.DSet]
  let energy := groupCheck ps.energyGroupSet
    [ps.ESet, ps.etaOptSet, ps.aoiSet, ps.docSet, ps.c1Set, ps.c2Set,
     ps.iam1Set, ps.iam2Set, ps.ASet, ps.TambSet]
  let optional : List Bool :=
    [ps.QSet, ps.prSet, ps.zetaSet, hydro.1, energy.1]
  { hydroIsSet := hydro.1
    hydroWarned := hydro.2
    energyIsSet := energy.1
    energyWarned := energy.2
    numEq := numFluids + 1 + optional.count true }

/-- Concrete connection used to exercise the composition clamp on a fixed
fraction: two fluids, all properties fixed, first fraction fixed at
`5e-7 < err`. -/
def clampDemoConn : ConnState where
  m := ⟨1, true⟩
  p := ⟨100000, true⟩
  h := ⟨1000, true⟩
  fluid := [⟨1 / 2000000, true⟩, ⟨1, true⟩]

/-- Concrete `TroughParams` with `hydro_group` marked set while its element
`D` is unset, and `Q` set. -/
def partialHydroParams : TroughParams where
  QSet := true
  prSet := false
  zetaSet := false
  hydroGroupSet := true
  LSet := true
  ksSet := true
  DSet := false
  energyGroupSet := false
  ESet := false
  etaOptSet := false
  aoiSet := false
  docSet := false
  c1Set := false
  c2Set := false
  iam1Set := false
  iam2Set := false
  ASet := false
  TambSet := false

end Tespy

namespace Tespy

theorem errSqrt_sq : errSqrt * errSqrt = err := by
  norm_num [errSqrt, err]

/-- C4: for every connection with a free pressure whose current SI pressure is
strictly positive, the pressure after the Newton step damped by
`relax = max(1, -increment / (0.5 * p))` is strictly positive, for every raw
increment (it never drops below half the old pressure). -/
theorem relaxStep_pos (p inc : ℚ) (hp : 0 < p) : 0 < relaxStep p inc := by
  have h2 : 0 < 1 / 2 * p := by linarith
  unfold relaxStep
  rcases le_or_lt (-inc / (1 / 2 * p)) 1 with h | h
  · rw [max_eq_left h]
    have : -inc ≤ 1 / 2 * p := by
      have := (div_le_one h2).mp h
      linarith
    have : p + inc / 1 ≥ 1 / 2 * p := by
      rw [div_one]
      linarith
    linarith
  · rw [max_eq_right h.le]
    have hlt : 1 / 2 * p < -inc := (one_lt_div h2).mp h
    have hinc : inc ≠ 0 := by
      intro h0
      rw [h0] at hlt
      simp at hlt
      linarith
    have hpne : p ≠ 0 := ne_of_gt hp
    have hkey : inc / (-inc / (1 / 2 * p)) = -(1 / 2 * p) := by
      rw [div_div_eq_mul_div, div_mul_eq_mul_div, mul_comm]
      rw [mul_div_assoc]
      rw [div_neg, div_self hinc]
      ring
    rw [hkey]
    linarith

/-- Witness for `relaxStep_pos`: pressure 2 with raw increment -100 (whose
undamped application would be far negative) stays strictly positive. -/
theorem relaxStep_pos_witness : (0 : ℚ) < 2 ∧ 0 < relaxStep 2 (-100) :=
  ⟨by norm_num, relaxStep_pos 2 (-100) (by norm_num)⟩

/-- C8: after the substitution block of `kA_func` / `kA_char_func`, both
terminal temperature differences are strictly positive for every input, so the
argument of the logarithm in the logarithmic-mean temperature difference is
strictly positive and the equations never hit a singular logarithm. -/
theorem fixTempLevels_feasible (Ti1 Ti2 To1 To2 : ℚ) :
    0 < (fixTempLevels Ti1 Ti2 To1 To2).1 -
      (fixTempLevels Ti1 Ti2 To1 To2).2.2.2 ∧
    0 < (fixTempLevels Ti1 Ti2 To1 To2).2.2.1 -
      (fixTempLevels Ti1 Ti2 To1 To2).2.1 ∧
    0 < lmtdLogArg Ti1 Ti2 To1 To2 := by
  have h1 : 0 < (fixTempLevels Ti1 Ti2 To1 To2).1 -
      (fixTempLevels Ti1 Ti2 To1 To2).2.2.2 := by
    unfold fixTempLevels
    dsimp only
    split_ifs <;> linarith
  have h2 : 0 < (fixTempLevels Ti1 Ti2 To1 To2).2.2.1 -
      (fixTempLevels Ti1 Ti2 To1 To2).2.1 := by
    unfold fixTempLevels
    dsimp only
    split_ifs <;> linarith
  exact ⟨h1, h2, div_pos h2 h1⟩

/-- C10: the network sorts its fluid list at construction, so the sorted list,
and with it the state-vector column assigned to every fluid mass fraction of
every connection, is the same for any two user-supplied fluid orderings. -/
theorem sortFluids_perm_invariant (l₁ l₂ : List String) (connLoc : ℕ)
    (hperm : l₁.Perm l₂) :
    sortFluids l₁ = sortFluids l₂ ∧
    List.Sorted (· ≤ ·) (sortFluids l₁) ∧
    compositionColumns l₁ connLoc = compositionColumns l₂ connLoc := by
  have hs₁ : List.Sorted (· ≤ ·) (sortFluids l₁) :=
    List.sorted_insertionSort _ _
  have hs₂ : List.Sorted (· ≤ ·) (sortFluids l₂) :=
    List.sorted_insertionSort _ _
  have hp : (sortFluids l₁).Perm (sortFluids l₂) :=
    ((List.perm_insertionSort _ l₁).trans hperm).trans
      (List.perm_insertionSort _ l₂).symm
  have heq : sortFluids l₁ = sortFluids l₂ :=
    List.eq_of_perm_of_sorted hp hs₁ hs₂
  refine ⟨heq, hs₁, ?_⟩
  unfold compositionColumns
  rw [heq, hperm.length_eq]

/-- Witness for `sortFluids_perm_invariant`: the two orderings of the fluid
pair water/air produce the identical sorted list. -/
theorem sortFluids_perm_invariant_witness :
    sortFluids ["water", "air"] = sortFluids ["air", "water"] :=
  (sortFluids_perm_invariant ["water", "air"] ["air", "water"] 0
    (List.Perm.swap "air" "water" [])).1

/-- C6: `solve` checks, before the Newton loop runs, that component plus
connection plus bus equations equal `(3 + num_fluids)` unknowns per connection
plus the component free variables; an over-determined system raises the
too-many diagnostic, an under-determined one the (distinct) not-enough
diagnostic, and in either failing case the result does not depend on the loop
at all. -/
theorem solve_determination_square (nf nc ncv ce qe be : ℕ)
    (lr lr' : ℕ × ExitStatus) :
    (numConnVars nf * nc + ncv < ce + qe + be →
      solveModel nf nc ncv ce qe be lr = Except.error tooManyMsg) ∧
    (ce + qe + be < numConnVars nf * nc + ncv →
      solveModel nf nc ncv ce qe be lr = Except.error notEnoughMsg) ∧
    (ce + qe + be ≠ numConnVars nf * nc + ncv →
      solveModel nf nc ncv ce qe be lr = solveModel nf nc ncv ce qe be lr') ∧
    (ce + qe + be = numConnVars nf * nc + ncv →
      solveModel nf nc ncv ce qe be lr = Except.ok (solvePost lr.2)) ∧
    tooManyMsg ≠ notEnoughMsg := by
  unfold solveModel solveDetermination
  refine ⟨?_, ?_, ?_, ?_, by decide⟩
  · intro hgt
    rw [if_pos hgt]
  · intro hlt
    rw [if_neg (by omega), if_pos hlt]
  · intro hne
    rcases Nat.lt_or_ge (numConnVars nf * nc + ncv) (ce + qe + be) with h | h
    · rw [if_pos h]
    · have hlt : ce + qe + be < numConnVars nf * nc + ncv := by omega
      rw [if_neg (by omega), if_pos hlt]
  · intro heq
    rw [if_neg (by omega), if_neg (by omega)]

/-- Witness for `solve_determination_square`: one fluid, one connection, no
component variables gives 4 unknowns; supplying 5 equations aborts with the
too-many diagnostic. -/
theorem solve_determination_square_witness :
    solveModel 1 1 0 5 0 0 (0, ExitStatus.converged) =
      Except.error tooManyMsg :=
  (solve_determination_square 1 1 0 5 0 0 (0, ExitStatus.converged)
    (0, ExitStatus.converged)).1 (by norm_num [numConnVars])

/-- C1: the composition-balance residual is `1` minus the sum of the fluid
mass fractions, as the claim states, but the `-1` Jacobian entries go to
columns `conn_loc + 3 + j` instead of the state layout's
`conn_loc * (3 + num_fluids) + 3 + j`: for the connection at index 1 of a
two-fluid network the source writes columns 4 and 5 where the layout requires
8 and 9. -/
theorem fluid_balance_column_slip :
    fluidBalanceResidual [1 / 4, 1 / 2] = 1 - (1 / 4 + 1 / 2) ∧
    fluidBalanceCols 1 2 = [4, 5] ∧
    layoutFluidCols 1 2 = [8, 9] ∧
    fluidBalanceCols 1 2 ≠ layoutFluidCols 1 2 := by
  refine ⟨?_, by decide, by decide, by decide⟩
  norm_num [fluidBalanceResidual]

/-- C2 counterexample: `comp_init` on a trough whose `hydro_group` is marked
set while `D` is unset completes normally — it deactivates the group, records
the warning diagnostic, and still computes an equation count (here
`1 + 1 + 1 = 3` with one fluid and `Q` set); no error is raised and the solve
call proceeds. -/
theorem trough_partial_group_not_fatal :
    troughCompInit 1 partialHydroParams =
      { hydroIsSet := false, hydroWarned := true, energyIsSet := false,
        energyWarned := false, numEq := 3 } := by
  decide

/-- C2 (amended): a grouped parameter set marked as set while some element is
unset is detected in `comp_init` before the first iteration and surfaced with
the group-specific warning diagnostic; the group is deactivated (`is_set`
becomes `False`) and initialisation completes instead of aborting the solve
call. -/
theorem trough_partial_group_warns (numFluids : ℕ) (ps : TroughParams) :
    (ps.hydroGroupSet = true →
      ([ps.LSet, ps.ksSet, ps.DSet].all (fun b => b)) = false →
      (troughCompInit numFluids ps).hydroIsSet = false ∧
      (troughCompInit numFluids ps).hydroWarned = true) ∧
    (ps.energyGroupSet = true →
      ([ps.ESet, ps.etaOptSet, ps.aoiSet, ps.docSet, ps.c1Set, ps.c2Set,
        ps.iam1Set, ps.iam2Set, ps.ASet, ps.TambSet].all (fun b => b))
        = false →
      (troughCompInit numFluids ps).energyIsSet = false ∧
      (troughCompInit numFluids ps).energyWarned = true) := by
  constructor
  · intro hset hpartial
    unfold troughCompInit groupCheck
    simp [hset, hpartial]
  · intro hset hpartial
    unfold troughCompInit groupCheck
    simp [hset, hpartial]

/-- Witness for `trough_partial_group_warns`: the concrete partially-specified
hydro group triggers the warning. -/
theorem trough_partial_group_warns_witness :
    (troughCompInit 1 partialHydroParams).hydroWarned = true :=
  ((trough_partial_group_warns 1 partialHydroParams).1 rfl rfl).2

theorem fluidClamp_unit (x : ℚ) : 0 ≤ fluidClamp x ∧ fluidClamp x ≤ 1 := by
  unfold fluidClamp
  split_ifs with h1 h2
  · norm_num
  · norm_num
  · rw [not_lt] at h1 h2
    constructor
    · have : (0 : ℚ) < err := by norm_num [err]
      linarith
    · have : err > 0 := by norm_num [err]
      linarith

theorem fluidClamp_of_good (x : ℚ)
    (hx : x = 0 ∨ x = 1 ∨ (err ≤ x ∧ x ≤ 1 - err)) : fluidClamp x = x := by
  rcases hx with h | h | ⟨h1, h2⟩
  · subst h
    norm_num [fluidClamp, err]
  · subst h
    norm_num [fluidClamp, err]
  · unfold fluidClamp
    rw [if_neg (not_lt.mpr h1), if_neg (not_lt.mpr h2)]

theorem fluidStepAll_getElem? (fs : List FluidRec) (df : ℕ → ℚ) (i : ℕ) :
    (fluidStepAll fs df)[i]? = fs[i]?.map fun f => fluidStep f (df i) := by
  induction fs generalizing df i with
  | nil => simp [fluidStepAll]
  | cons f fs ih =>
    cases i with
    | zero => simp [fluidStepAll]
    | succ n => simp [fluidStepAll, ih]

theorem mem_fluidStepAll_unit (fs : List FluidRec) (df : ℕ → ℚ) :
    ∀ g ∈ fluidStepAll fs df, 0 ≤ g.val ∧ g.val ≤ 1 := by
  induction fs generalizing df with
  | nil =>
    intro g hg
    simp [fluidStepAll] at hg
  | cons f fs ih =>
    intro g hg
    rcases List.mem_cons.mp hg with h | h
    · subst h
      exact fluidClamp_unit _
    · exact ih _ g h

/-- C9: for a multi-fluid network, after the Newton step of `solve_control`
every fluid mass fraction of the updated connection lies in `[0, 1]`, for
every increment; moreover a post-increment fraction below `err` is set to
exactly 0 and one above `1 - err` to exactly 1. -/
theorem composition_in_unit_interval (clampM clampP clampH : ℚ → ℚ)
    (c : ConnState) (dm dp dh : ℚ) (df : ℕ → ℚ) (f : FluidRec) (d : ℚ) :
    (∀ g ∈ (connUpdate true clampM clampP clampH c dm dp dh df).fluid,
      0 ≤ g.val ∧ g.val ≤ 1) ∧
    ((if f.valSet then f.val else f.val + d) < err →
      (fluidStep f d).val = 0) ∧
    (1 - err < (if f.valSet then f.val else f.val + d) →
      (fluidStep f d).val = 1) := by
  refine ⟨?_, ?_, ?_⟩
  · intro g hg
    have : (connUpdate true clampM clampP clampH c dm dp dh df).fluid =
        fluidStepAll c.fluid df := by
      simp [connUpdate, checkProps, connStep]
    rw [this] at hg
    exact mem_fluidStepAll_unit c.fluid df g hg
  · intro hlow
    simp only [fluidStep, fluidClamp]
    rw [if_pos hlow]
  · intro hhigh
    simp only [fluidStep, fluidClamp]
    rw [if_neg (by push_neg; nlinarith [show (0:ℚ) < err by norm_num [err],
      show err ≤ 1 - err by norm_num [err]]), if_pos hhigh]

/-- Witness for `composition_in_unit_interval`: a free fraction at 2 after its
increment exceeds `1 - err` and is snapped to exactly 1. -/
theorem composition_in_unit_interval_witness :
    (fluidStep ⟨2, false⟩ 0).val = 1 :=
  (composition_in_unit_interval id id id clampDemoConn 0 0 0 (fun _ => 0)
    ⟨2, false⟩ 0).2.2 (by norm_num [err])

/-- C3 counterexample: a connection whose first fluid fraction is fixed
(`val_set = True`) at `5e-7` is still modified by the post-step composition
clamp — `solve_control` snaps it to 0 even though no increment was applied to
it, so a fixed property is perturbed. -/
theorem fixed_fraction_clamped :
    ((connUpdate true id id id clampDemoConn 0 0 0 fun _ => 0).fluid.map
      FluidRec.val) = [0, 1] ∧
    clampDemoConn.fluid.map FluidRec.val = [1 / 2000000, 1] ∧
    (1 : ℚ) / 2000000 ≠ 0 := by
  refine ⟨?_, by norm_num [clampDemoConn], by norm_num⟩
  norm_num [connUpdate, connStep, checkProps, clampDemoConn, fluidStepAll,
    fluidStep, fluidClamp, err]

/-- C3 (amended): `solve_control` never perturbs a fixed mass flow, pressure
or enthalpy, for every increment and every feasibility clamp; a fixed fluid
mass fraction is likewise preserved provided its value is 0, 1, or inside
`[err, 1 - err]` — fixed fractions strictly inside `(0, err)` or
`(1 - err, 1)` are snapped to 0 or 1 by the unconditional composition
clamp. -/
theorem fixed_props_preserved (multi : Bool) (clampM clampP clampH : ℚ → ℚ)
    (c : ConnState) (dm dp dh : ℚ) (df : ℕ → ℚ) :
    (c.m.valSet = true →
      (connUpdate multi clampM clampP clampH c dm dp dh df).m.val = c.m.val) ∧
    (c.p.valSet = true →
      (connUpdate multi clampM clampP clampH c dm dp dh df).p.val = c.p.val) ∧
    (c.h.valSet = true →
      (connUpdate multi clampM clampP clampH c dm dp dh df).h.val = c.h.val) ∧
    (∀ i : ℕ, ∀ f : FluidRec, c.fluid[i]? = some f → f.valSet = true →
      (f.val = 0 ∨ f.val = 1 ∨ (err ≤ f.val ∧ f.val ≤ 1 - err)) →
      ((connUpdate multi clampM clampP clampH c dm dp dh df).fluid[i]?.map
        FluidRec.val) = some f.val) := by
  refine ⟨?_, ?_, ?_, ?_⟩
  · intro hm
    simp [connUpdate, connStep, checkProps, hm]
  · intro hp
    simp [connUpdate, connStep, checkProps, hp]
  · intro hh
    simp [connUpdate, connStep, checkProps, hh]
  · intro i f hget hset hgood
    have hfl : (connUpdate multi clampM clampP clampH c dm dp dh df).fluid =
        if multi then fluidStepAll c.fluid df else c.fluid := by
      simp [connUpdate, checkProps, connStep]
    rw [hfl]
    cases multi with
    | false =>
      simp [hget]
    | true =>
      have hstep : fluidStep f (df i) = ⟨f.val, f.valSet⟩ := by
        simp [fluidStep, hset, fluidClamp_of_good f.val hgood]
      rw [if_pos rfl, fluidStepAll_getElem?, hget]
      simp [hstep]

/-- Witness for `fixed_props_preserved`: the fixed mass flow of the
demonstration connection is untouched by an arbitrary step. -/
theorem fixed_props_preserved_witness :
    (connUpdate true id id id clampDemoConn 7 (-3) 2 fun _ => 9).m.val =
      clampDemoConn.m.val :=
  (fixed_props_preserved true id id id clampDemoConn 7 (-3) 2
    (fun _ => 9)).1 rfl

/-- C5: on a failed Jacobian inversion the increment becomes the zero vector
and `lin_dep` stays `True`; `solve_control` then returns with every connection
and component variable untouched; the loop breaks at that very iteration with
the singular exit; and `solve` turns that exit into a report instead of an
exception. -/
theorem singular_jacobian_aborts (multi : Bool) (clampM clampP clampH : ℚ → ℚ)
    (ncv : ℕ) (st : NetState) (maxIter minIter : ℕ) (linDep : ℕ → Bool)
    (resNorm : ℕ → ℚ) (h0 : linDep 0 = true) (hmax : 0 < maxIter) :
    matrixInversion st.residual none =
      (true, List.replicate st.residual.length 0) ∧
    (solveControl multi clampM clampP clampH ncv none st).conns = st.conns ∧
    (solveControl multi clampM clampP clampH ncv none st).compVars =
      st.compVars ∧
    (solveControl multi clampM clampP clampH ncv none st).linDep = true ∧
    (solveControl multi clampM clampP clampH ncv none st).increment =
      List.replicate st.residual.length 0 ∧
    solveLoopModel maxIter minIter linDep resNorm =
      (0, ExitStatus.singular) ∧
    solvePost ExitStatus.singular = SolveOutcome.singularReport := by
  have hmap : (st.residual.map fun _ => (0 : ℚ)) =
      List.replicate st.residual.length 0 := by
    simp [List.map_const']
  refine ⟨?_, ?_, ?_, ?_, ?_, ?_, rfl⟩
  · simp [matrixInversion, hmap]
  · simp [solveControl, matrixInversion]
  · simp [solveControl, matrixInversion]
  · simp [solveControl, matrixInversion]
  · simp [solveControl, matrixInversion, hmap]
  · cases maxIter with
    | zero => omega
    | succ n => simp [solveLoopModel, loopFrom, h0]

/-- Witness for `singular_jacobian_aborts`: a concrete two-equation state with
a failed inversion leaves the connection list untouched. -/
theorem singular_jacobian_aborts_witness :
    (solveControl true id id id 5 none
      { conns := [clampDemoConn], compVars := [], residual := [1, 2],
        increment := [], linDep := false }).conns = [clampDemoConn] :=
  (singular_jacobian_aborts true id id id 5
    { conns := [clampDemoConn], compVars := [], residual := [1, 2],
      increment := [], linDep := false }
    1 4 (fun _ => true) (fun _ => 1) rfl (by norm_num)).2.1

theorem loopFrom_converged_bounds (minIter : ℕ) (linDep : ℕ → Bool)
    (resNorm : ℕ → ℚ) : ∀ rem i k,
    loopFrom minIter linDep resNorm i rem = (k, ExitStatus.converged) →
    minIter ≤ k ∧ resNorm k < errSqrt := by
  intro rem
  induction rem with
  | zero =>
    intro i k h
    simp [loopFrom] at h
  | succ n ih =>
    intro i k h
    unfold loopFrom at h
    by_cases hl : linDep i
    · simp [hl] at h
    · by_cases hc : convergedAt minIter resNorm i
      · simp [hl, hc] at h
        have hc' := hc
        simp only [convergedAt, Bool.and_eq_true, decide_eq_true_eq] at hc'
        rcases h with ⟨rfl, -⟩
        exact hc'
      · by_cases hs : stalledCheck resNorm i
        · simp [hl, hc, hs] at h
        · simp only [hl, hc, hs, if_false, Bool.false_eq_true,
            if_neg] at h
          exact ih (i + 1) k h

theorem loopFrom_no_stall_exit (minIter : ℕ) (linDep : ℕ → Bool)
    (resNorm : ℕ → ℚ) : ∀ rem i,
    (∀ j, i ≤ j → j < i + rem → linDep j = false) →
    (∀ j, i ≤ j → j < i + rem → stalledCheck resNorm j = false) →
    (∃ k, i ≤ k ∧ k < i + rem ∧
      loopFrom minIter linDep resNorm i rem = (k, ExitStatus.converged) ∧
      convergedAt minIter resNorm k = true ∧
      ∀ j, i ≤ j → j < k → convergedAt minIter resNorm j = false) ∨
    (loopFrom minIter linDep resNorm i rem =
        (i + rem - 1, ExitStatus.exhausted) ∧
      ∀ j, i ≤ j → j < i + rem → convergedAt minIter resNorm j = false) := by
  intro rem
  induction rem with
  | zero =>
    intro i _ _
    right
    constructor
    · simp [loopFrom]
    · intro j h1 h2
      omega
  | succ n ih =>
    intro i hld hst
    have hldi : linDep i = false := hld i le_rfl (by omega)
    by_cases hc : convergedAt minIter resNorm i
    · left
      refine ⟨i, le_rfl, by omega, ?_, hc, ?_⟩
      · unfold loopFrom
        simp [hldi, hc]
      · intro j h1 h2
        omega
    · have hsti : stalledCheck resNorm i = false := hst i le_rfl (by omega)
      have hcf : convergedAt minIter resNorm i = false :=
        Bool.eq_false_iff.mpr hc
      have hunf : loopFrom minIter linDep resNorm i (n + 1) =
          loopFrom minIter linDep resNorm (i + 1) n := by
        conv_lhs => rw [loopFrom]
        simp [hldi, hcf, hsti]
      have hrec := ih (i + 1)
        (fun j h1 h2 => hld j (by omega) (by omega))
        (fun j h1 h2 => hst j (by omega) (by omega))
      rcases hrec with ⟨k, hk1, hk2, hk3, hk4, hk5⟩ | ⟨h1, h2⟩
      · left
        refine ⟨k, by omega, by omega, by rw [hunf]; exact hk3, hk4, ?_⟩
        intro j hj1 hj2
        by_cases hji : j = i
        · subst hji
          exact hcf
        · exact hk5 j (by omega) hj2
      · right
        constructor
        · rw [hunf, h1]
          have : i + 1 + n - 1 = i + (n + 1) - 1 := by omega
          rw [this]
        · intro j hj1 hj2
          by_cases hji : j = i
          · subst hji
            exact hcf
          · exact h2 j (by omega) (by omega)

/-- C7: the Newton loop never exits as converged before `min_iter` — a
converged exit at iteration `k` forces `min_iter ≤ k` and residual norm below
`err ** 0.5` — and when no iteration is singular or stalled, the loop runs
until the first iteration satisfying that conjunction, or to the iteration cap
when none does. -/
theorem newton_loop_min_iter (maxIter minIter : ℕ) (linDep : ℕ → Bool)
    (resNorm : ℕ → ℚ) :
    (∀ k, solveLoopModel maxIter minIter linDep resNorm =
        (k, ExitStatus.converged) → minIter ≤ k ∧ resNorm k < errSqrt) ∧
    ((∀ j, j < maxIter → linDep j = false) →
     (∀ j, j < maxIter → stalledCheck resNorm j = false) →
     (∃ k, k < maxIter ∧
        solveLoopModel maxIter minIter linDep resNorm =
          (k, ExitStatus.converged) ∧
        convergedAt minIter resNorm k = true ∧
        ∀ j, j < k → convergedAt minIter resNorm j = false) ∨
     (solveLoopModel maxIter minIter linDep resNorm =
        (maxIter - 1, ExitStatus.exhausted) ∧
      ∀ j, j < maxIter → convergedAt minIter resNorm j = false)) := by
  constructor
  · intro k h
    exact loopFrom_converged_bounds minIter linDep resNorm maxIter 0 k h
  · intro hld hst
    have hmain := loopFrom_no_stall_exit minIter linDep resNorm maxIter 0
      (fun j _ h2 => hld j (by omega)) (fun j _ h2 => hst j (by omega))
    rcases hmain with ⟨k, _, hk2, hk3, hk4, hk5⟩ | ⟨h1, h2⟩
    · left
      exact ⟨k, by omega, hk3, hk4, fun j hj => hk5 j (by omega) hj⟩
    · right
      refine ⟨?_, fun j hj => h2 j (by omega) (by omega)⟩
      have : (0 : ℕ) + maxIter - 1 = maxIter - 1 := by omega
      rw [← this]
      exact h1

/-- Witness for `newton_loop_min_iter`: with one iteration allowed, no
singularity, no stall and a residual norm of 1 that never converges, the loop
ends exhausted at iteration 0. -/
theorem newton_loop_min_iter_witness :
    (∃ k, k < 1 ∧
      solveLoopModel 1 0 (fun _ => false) (fun _ => (1 : ℚ)) =
        (k, ExitStatus.converged) ∧
      convergedAt 0 (fun _ => (1 : ℚ)) k = true ∧
      ∀ j, j < k → convergedAt 0 (fun _ => (1 : ℚ)) j = false) ∨
    (solveLoopModel 1 0 (fun _ => false) (fun _ => (1 : ℚ)) =
        (0, ExitStatus.exhausted) ∧
      ∀ j, j < 1 → convergedAt 0 (fun _ => (1 : ℚ)) j = false) :=
  (newton_loop_min_iter 1 0 (fun _ => false) (fun _ => (1 : ℚ))).2
    (fun _ _ => rfl)
    (fun j hj => by
      have hj0 : j = 0 := by omega
      subst hj0
      decide)

end Tespy
